import Mathlib

/-!
Verification of the CUDA path tracer / A-trous denoiser core
(`src/pathtrace.cu`) against its natural-language specification.

The source is shallowly embedded: per-thread kernel bodies become pure
per-pixel (or per-slot) Lean functions, device buffers become functions
from indices to values, machine floats become exact rationals or reals,
and the host-side depth loop becomes an explicit step relation on lists
of path records.
-/

namespace PathTracer

/-- A three-component vector (`glm::vec3`), represented as a function from
component index to value. -/
abbrev Vec3 (α : Type) := Fin 3 → α

/-- Squared length of a vector (`glm::length2`). -/
def length2 {α : Type} [CommRing α] (v : Vec3 α) : α :=
  v 0 * v 0 + v 1 * v 1 + v 2 * v 2

/-- A ray (`Ray`): origin and direction. -/
structure Ray where
  origin : Vec3 ℚ
  direction : Vec3 ℚ

/-- One in-flight path record (`PathSegment`).  Numeric fields are exact
rationals standing for the float fields of the source struct;
`remainingBounces` is the source's `int`. -/
structure PathSegment where
  ray : Ray
  colorThroughput : Vec3 ℚ
  directAccum : Vec3 ℚ
  indirectAccum : Vec3 ℚ
  pixelIndex : ℕ
  lastGeom : ℤ
  remainingBounces : ℤ
  prevBounceNoMis : Bool
  prevBounceSpecular : Bool
  indirectIllum : Bool

/-- One intersection record (`ShadeableIntersection`); `materialId = -1` is
the miss sentinel written by `computeIntersections`. -/
structure ShadeableIntersection where
  t : ℚ
  materialId : ℤ
  geometricNormal : Vec3 ℚ
  shadingNormal : Vec3 ℚ

/-- The closed set of buffer identifiers (`BufferType`) dispatched on by
`aTrous`, `processTexel` and `getBuffers`. -/
inductive BufferType where
  | DirectSpecularIllumination
  | IndirectDiffuseIllumination
  | DirectSpecularIlluminationVariance
  | IndirectDiffuseIlluminationVariance
  | FullIllumination
  | Normal
  | Position
  | FilteredDirectSpecular
  | FilteredIndirectDiffuse
  | FilteredColor
deriving DecidableEq

/-- The static device buffers of `pathtrace.cu` that the buffer-dispatch
operations select among, by name. -/
inductive DevBuffer where
  | directIllum
  | directIllumSqr
  | indirectIllum
  | indirectIllumSqr
  | normalBuffer
  | positionBuffer
  | filteredDirectSpecular
  | filteredIndirectDiffuse
deriving DecidableEq

/-- Outcome of the buffer-category dispatch at the top of `aTrous`
(lines 681-694): either the run proceeds with a chosen accumulation color
buffer, its sum-of-squares buffer, and the result buffer it will write, or
the process aborts (`std::abort()` in the `else` branch). -/
inductive ATrousDispatch where
  | run (colorBuf colorSqrBuf resultBuf : DevBuffer)
  | abort
deriving DecidableEq

/-- The buffer-category selection performed by `aTrous`: for
`DirectSpecularIllumination` it selects `dev_indirectIllum`,
`dev_indirectIllumSqr` and writes `dev_filteredIndirectDiffuse`; for
`IndirectDiffuseIllumination` it selects the direct accumulation buffers and
writes `dev_filteredDirectSpecular`; every other identifier reaches
`std::abort()`. -/
def aTrousSelect : BufferType → ATrousDispatch
  | .DirectSpecularIllumination =>
      .run .indirectIllum .indirectIllumSqr .filteredIndirectDiffuse
  | .IndirectDiffuseIllumination =>
      .run .directIllum .directIllumSqr .filteredDirectSpecular
  | _ => .abort

/-- The buffer-selection query `getBuffers` (lines 816-852): maps a buffer
identifier to its primary storage and optional secondary storage, including
the `[[fallthrough]]` sharing between the variance and plain cases. -/
def getBuffers : BufferType → DevBuffer × Option DevBuffer
  | .DirectSpecularIlluminationVariance => (.directIllum, some .directIllumSqr)
  | .DirectSpecularIllumination => (.directIllum, none)
  | .IndirectDiffuseIlluminationVariance => (.indirectIllum, some .indirectIllumSqr)
  | .IndirectDiffuseIllumination => (.indirectIllum, none)
  | .FullIllumination => (.directIllum, some .indirectIllum)
  | .Normal => (.normalBuffer, none)
  | .Position => (.positionBuffer, none)
  | .FilteredDirectSpecular => (.filteredDirectSpecular, none)
  | .FilteredIndirectDiffuse => (.filteredIndirectDiffuse, none)
  | .FilteredColor => (.filteredDirectSpecular, some .filteredIndirectDiffuse)

/-- The compile-time sampling-policy toggle `stratifiedSplat` of the source
(`constexpr bool stratifiedSplat = false`). -/
def stratifiedSplat : Bool := false

/-- The function `stratifiedSampleIndex` (lines 175-181), with the compile-time policy
made an explicit argument and the external hash modelled from the spec:
the spec describes only an abstract per-pixel `hash(pixelIndex)` (the
source's `utilhash` lives in `utilities.h`, which is not part of this
repository snapshot), so the hash is an arbitrary function argument. -/
def stratifiedSampleIndex (splat : Bool) (hash : ℕ → ℕ)
    (iter pixelIndex total : ℕ) : ℕ :=
  if splat then
    iter % total
  else
    (iter + hash pixelIndex) % total

/-- The early-return guard of `generateRayFromCamera` (line 198):
`if (x >= cam.resolution.x && y >= cam.resolution.y) return;`.
Returns `true` exactly when the thread exits without writing. -/
def generateRayGuard (resX resY x y : ℤ) : Bool :=
  decide (x ≥ resX) && decide (y ≥ resY)

/-- The path-array index written by `generateRayFromCamera` when the guard
does not fire: `index = x + (y * cam.resolution.x)` (line 202). -/
def generateRayWriteIndex (resX x y : ℤ) : ℤ :=
  x + y * resX

/-- Threads launched per axis by the ray-generation grid (lines 375-378):
blocks of 8 threads, rounded up to cover the resolution. -/
def launchThreads (res : ℤ) : ℤ :=
  ((res + 8 - 1) / 8) * 8

/-- The helper `glm::mix(a, b, t)`: componentwise linear interpolation
`a + t * (b - a)`. -/
def glmMix (a b : Vec3 ℝ) (t : ℝ) : Vec3 ℝ :=
  fun i => a i + t * (b i - a i)

/-- The helper `texelFetch` (lines 503-508): clamped 2D fetch from a flat
`width * height` buffer at integer coordinates. -/
def texelFetch (tex : ℕ → Vec3 ℝ) (width height : ℕ) (x y : ℤ) : Vec3 ℝ :=
  tex ((min (max y 0) ((height : ℤ) - 1)) * (width : ℤ) +
    (min (max x 0) ((width : ℤ) - 1))).toNat

/-- The helper `textureSampleBilinear` (lines 510-523): bilinear interpolation of the
four texels around a continuous pixel coordinate, with clamped fetches. -/
noncomputable def textureSampleBilinear (tex : ℕ → Vec3 ℝ) (width height : ℕ)
    (pixelX pixelY : ℝ) : Vec3 ℝ :=
  let px := pixelX - 0.5
  let py := pixelY - 0.5
  let x : ℤ := ⌊px⌋
  let y : ℤ := ⌊py⌋
  let fx := px - (x : ℝ)
  let fy := py - (y : ℝ)
  glmMix
    (glmMix (texelFetch tex width height x y)
      (texelFetch tex width height (x + 1) y) fx)
    (glmMix (texelFetch tex width height x (y + 1))
      (texelFetch tex width height (x + 1) (y + 1)) fx)
    fy

/-- The binomial tap weights of `aTrousIter`
(`{0.0625, 0.25, 0.375, 0.25, 0.0625}`). -/
def binomWeights : Fin 5 → ℝ :=
  ![0.0625, 0.25, 0.375, 0.25, 0.0625]

/-- The tap offsets of `aTrousIter`
(`{-2 s, -1 s, 0, 1 s, 2 s}` for step size `s`). -/
def tapOffsets (stepSize : ℝ) : Fin 5 → ℝ :=
  ![-2 * stepSize, -1 * stepSize, 0, 1 * stepSize, 2 * stepSize]

/-- The 5x5 accumulation loop of `aTrousIter` (lines 552-576): a fold over
the tap grid, x outer and y inner, threading the running
(totalColor, totalWeight) pair from `(0, 0)`. -/
def aTrousLoop (step : Vec3 ℝ × ℝ → Fin 5 → Fin 5 → Vec3 ℝ × ℝ) : Vec3 ℝ × ℝ :=
  (List.finRange 5).foldl
    (fun acc x => (List.finRange 5).foldl (fun a y => step a x y) acc)
    ((0 : Vec3 ℝ), (0 : ℝ))

/-- The per-pixel body of the `aTrousIter` kernel (lines 525-579), for the
pixel at `(ix, iy)`: accumulates the 25 weighted taps — the center tap with
its plain binomial weight and the raw center color, every other tap with the
binomial weight times the edge-stopping factor applied to a bilinear sample —
and divides the accumulated color by the accumulated weight. -/
noncomputable def aTrousIterPixel (color normal position : ℕ → Vec3 ℝ)
    (stddev : ℕ → ℝ) (width height : ℕ)
    (stepSize colorWeightSqr normalWeightSqr positionWeightSqr : ℝ)
    (ix iy : ℕ) : Vec3 ℝ :=
  fun i =>
    (aTrousLoop (fun acc2 x y =>
      if x.val = 2 ∧ y.val = 2 then
        (acc2.1 + (binomWeights x * binomWeights y) • color (iy * width + ix),
          acc2.2 + binomWeights x * binomWeights y)
      else
        (acc2.1 +
          (binomWeights x * binomWeights y *
            Real.exp (-(
              length2 (textureSampleBilinear color width height
                  ((ix : ℝ) + 0.5 + tapOffsets stepSize x)
                  ((iy : ℝ) + 0.5 + tapOffsets stepSize y) -
                color (iy * width + ix)) /
                (colorWeightSqr * stddev (iy * width + ix) + 0.01) +
              length2 (textureSampleBilinear normal width height
                  ((ix : ℝ) + 0.5 + tapOffsets stepSize x)
                  ((iy : ℝ) + 0.5 + tapOffsets stepSize y) -
                normal (iy * width + ix)) /
                (normalWeightSqr * stepSize * stepSize) +
              length2 (textureSampleBilinear position width height
                  ((ix : ℝ) + 0.5 + tapOffsets stepSize x)
                  ((iy : ℝ) + 0.5 + tapOffsets stepSize y) -
                position (iy * width + ix)) /
                positionWeightSqr))) •
            textureSampleBilinear color width height
              ((ix : ℝ) + 0.5 + tapOffsets stepSize x)
              ((iy : ℝ) + 0.5 + tapOffsets stepSize y),
          acc2.2 +
            binomWeights x * binomWeights y *
              Real.exp (-(
                length2 (textureSampleBilinear color width height
                    ((ix : ℝ) + 0.5 + tapOffsets stepSize x)
                    ((iy : ℝ) + 0.5 + tapOffsets stepSize y) -
                  color (iy * width + ix)) /
                  (colorWeightSqr * stddev (iy * width + ix) + 0.01) +
                length2 (textureSampleBilinear normal width height
                    ((ix : ℝ) + 0.5 + tapOffsets stepSize x)
                    ((iy : ℝ) + 0.5 + tapOffsets stepSize y) -
                  normal (iy * width + ix)) /
                  (normalWeightSqr * stepSize * stepSize) +
                length2 (textureSampleBilinear position width height
                    ((ix : ℝ) + 0.5 + tapOffsets stepSize x)
                    ((iy : ℝ) + 0.5 + tapOffsets stepSize y) -
                  position (iy * width + ix)) /
                  positionWeightSqr))))).1 i /
    (aTrousLoop (fun acc2 x y =>
      if x.val = 2 ∧ y.val = 2 then
        (acc2.1 + (binomWeights x * binomWeights y) • color (iy * width + ix),
          acc2.2 + binomWeights x * binomWeights y)
      else
        (acc2.1 +
          (binomWeights x * binomWeights y *
            Real.exp (-(
              length2 (textureSampleBilinear color width height
                  ((ix : ℝ) + 0.5 + tapOffsets stepSize x)
                  ((iy : ℝ) + 0.5 + tapOffsets stepSize y) -
                color (iy * width + ix)) /
                (colorWeightSqr * stddev (iy * width + ix) + 0.01) +
              length2 (textureSampleBilinear normal width height
                  ((ix : ℝ) + 0.5 + tapOffsets stepSize x)
                  ((iy : ℝ) + 0.5 + tapOffsets stepSize y) -
                normal (iy * width + ix)) /
                (normalWeightSqr * stepSize * stepSize) +
              length2 (textureSampleBilinear position width height
                  ((ix : ℝ) + 0.5 + tapOffsets stepSize x)
                  ((iy : ℝ) + 0.5 + tapOffsets stepSize y) -
                position (iy * width + ix)) /
                positionWeightSqr))) •
            textureSampleBilinear color width height
              ((ix : ℝ) + 0.5 + tapOffsets stepSize x)
              ((iy : ℝ) + 0.5 + tapOffsets stepSize y),
          acc2.2 +
            binomWeights x * binomWeights y *
              Real.exp (-(
                length2 (textureSampleBilinear color width height
                    ((ix : ℝ) + 0.5 + tapOffsets stepSize x)
                    ((iy : ℝ) + 0.5 + tapOffsets stepSize y) -
                  color (iy * width + ix)) /
                  (colorWeightSqr * stddev (iy * width + ix) + 0.01) +
                length2 (textureSampleBilinear normal width height
                    ((ix : ℝ) + 0.5 + tapOffsets stepSize x)
                    ((iy : ℝ) + 0.5 + tapOffsets stepSize y) -
                  normal (iy * width + ix)) /
                  (normalWeightSqr * stepSize * stepSize) +
                length2 (textureSampleBilinear position width height
                    ((ix : ℝ) + 0.5 + tapOffsets stepSize x)
                    ((iy : ℝ) + 0.5 + tapOffsets stepSize y) -
                  position (iy * width + ix)) /
                  positionWeightSqr))))).2

/-- Written from the spec's words: the edge-stopping factor
`exp(-(colorTerm + normalTerm + positionTerm))` of a non-center tap, with
`colorTerm` the squared color difference from the center divided by
`(colorWeight^2 * centerVariance + eps)`, `normalTerm` the squared normal
difference divided by `(normalWeight^2 * stepSize^2)`, and `positionTerm`
the squared world-position difference divided by `positionWeight^2`. -/
noncomputable def specEdgeStop (color normal position : ℕ → Vec3 ℝ)
    (stddev : ℕ → ℝ) (width height : ℕ)
    (stepSize colorWeight normalWeight positionWeight : ℝ)
    (ix iy : ℕ) (x y : Fin 5) : ℝ :=
  Real.exp (-(
    length2 (textureSampleBilinear color width height
        ((ix : ℝ) + 0.5 + tapOffsets stepSize x)
        ((iy : ℝ) + 0.5 + tapOffsets stepSize y) -
      color (iy * width + ix)) /
      (colorWeight * colorWeight * stddev (iy * width + ix) + 0.01) +
    length2 (textureSampleBilinear normal width height
        ((ix : ℝ) + 0.5 + tapOffsets stepSize x)
        ((iy : ℝ) + 0.5 + tapOffsets stepSize y) -
      normal (iy * width + ix)) /
      (normalWeight * normalWeight * stepSize * stepSize) +
    length2 (textureSampleBilinear position width height
        ((ix : ℝ) + 0.5 + tapOffsets stepSize x)
        ((iy : ℝ) + 0.5 + tapOffsets stepSize y) -
      position (iy * width + ix)) /
      (positionWeight * positionWeight)))

/-- Written from the spec's words: the weight of a tap — `0.375 * 0.375`
for the center tap with no edge-stopping discount, and the product of the
axis binomial weights times the edge-stopping factor otherwise. -/
noncomputable def specTapWeight (color normal position : ℕ → Vec3 ℝ)
    (stddev : ℕ → ℝ) (width height : ℕ)
    (stepSize colorWeight normalWeight positionWeight : ℝ)
    (ix iy : ℕ) (x y : Fin 5) : ℝ :=
  if x.val = 2 ∧ y.val = 2 then
    0.375 * 0.375
  else
    binomWeights x * binomWeights y *
      specEdgeStop color normal position stddev width height stepSize
        colorWeight normalWeight positionWeight ix iy x y

/-- Written from the spec's words: the color of a tap — the raw center color
for the center tap, a clamped bilinear sample at the offset position
otherwise. -/
noncomputable def specTapColor (color : ℕ → Vec3 ℝ) (width height : ℕ)
    (stepSize : ℝ) (ix iy : ℕ) (x y : Fin 5) : Vec3 ℝ :=
  if x.val = 2 ∧ y.val = 2 then
    color (iy * width + ix)
  else
    textureSampleBilinear color width height
      ((ix : ℝ) + 0.5 + tapOffsets stepSize x)
      ((iy : ℝ) + 0.5 + tapOffsets stepSize y)

/-- The per-pixel body of `aTrousComputeVariance` (lines 627-648), on the
running color sum `sum`, running sum-of-squares `sumSqr` and iteration count
`iter` read at one pixel: for `iter > 1` the kernel stores
`sqrt(max(0, (sumSqr - |sum|^2 / iter) / (iter - 1)))` into the per-pixel
estimate buffer (`dev_stddevBuffer`), otherwise it stores `1.0`. -/
noncomputable def aTrousComputeVariancePixel (sum : Vec3 ℝ) (sumSqr : ℝ)
    (iter : ℕ) : ℝ :=
  if 1 < iter then
    Real.sqrt (max 0 ((sumSqr - length2 sum / (iter : ℝ)) / ((iter : ℝ) - 1)))
  else
    1

/-- Written from the spec's words: the unbiased sample variance
`(sumSqr - |sum|^2 / iter) / (iter - 1)` of the accumulated per-pixel
color. -/
noncomputable def unbiasedSampleVariance (sum : Vec3 ℝ) (sumSqr : ℝ) (iter : ℕ) : ℝ :=
  (sumSqr - length2 sum / (iter : ℝ)) / ((iter : ℝ) - 1)

/-- The `variance` value computed in the variance-buffer branch of
`processTexel` (lines 721-728) on the per-pixel sum `pix1`, sum-of-squares
`sumSqr` and iteration count `iter`.  The source performs the float
divisions unguarded; the embedding returns `none` exactly when one of the
two divisors (`iter` in `|pix1|^2 / iter`, and `iter - 1`) is zero, i.e.
when the exact-arithmetic value is undefined. -/
def processTexelVariancePixel (pix1 : Vec3 ℚ) (sumSqr : ℚ) (iter : ℤ) : Option ℚ :=
  if iter = 0 ∨ iter = 1 then
    none
  else
    some ((sumSqr - length2 pix1 / (iter : ℚ)) / ((iter : ℚ) - 1))

/-- The compaction predicate `IsRayTravelling` (lines 353-357): a path is
still travelling while `remainingBounces > 0`. -/
def IsRayTravelling (p : PathSegment) : Bool :=
  decide (0 < p.remainingBounces)

/-- The path-state initialization performed by `generateRayFromCamera`
(lines 222-234).  The ray itself is built from camera parameters, the
stratified camera sample and jitter (`sampleUnitDiskUniform` and the RNG
live outside this translation unit), so it is passed in as data; every
other field is set exactly as the source writes it. -/
def generateRayFromCameraSegment (ray : Ray) (index : ℕ) (traceDepth : ℤ) :
    PathSegment where
  ray := ray
  colorThroughput := fun _ => 1
  directAccum := 0
  indirectAccum := 0
  pixelIndex := index
  lastGeom := -1
  remainingBounces := traceDepth
  prevBounceNoMis := true
  prevBounceSpecular := true
  indirectIllum := false

/-- The per-slot body of `shade` (lines 292-332): on a hit
(`materialId != -1`) the path is updated by the MIS/scatter machinery
(defined in `interactions.h`, outside this translation unit, hence an
abstract argument); on the miss sentinel the throughput is zeroed and
`remainingBounces` is set to 0. -/
def shadePath (hitShade : ShadeableIntersection → PathSegment → PathSegment)
    (isect : ShadeableIntersection) (p : PathSegment) : PathSegment :=
  if isect.materialId ≠ -1 then
    hitShade isect p
  else
    { p with colorThroughput := fun _ => 0, remainingBounces := 0 }

/-- One launch of the `shade` kernel over paired intersection and path
slots. -/
def shadeAll (hitShade : ShadeableIntersection → PathSegment → PathSegment)
    (isects : List ShadeableIntersection) (paths : List PathSegment) :
    List PathSegment :=
  List.zipWith (shadePath hitShade) isects paths

/-- The per-pixel accumulation state: the four running buffers
`dev_directIllum`, `dev_directIllumSqr`, `dev_indirectIllum`,
`dev_indirectIllumSqr`, indexed by pixel. -/
@[ext]
structure AccumState where
  direct : ℕ → Vec3 ℚ
  directSqr : ℕ → ℚ
  indirect : ℕ → Vec3 ℚ
  indirectSqr : ℕ → ℚ

/-- The all-zero accumulation state (`cudaMemset(..., 0, ...)` in
`pathtraceInit`). -/
def zeroAccum : AccumState :=
  ⟨fun _ => 0, fun _ => 0, fun _ => 0, fun _ => 0⟩

/-- The contribution of one path slot in `finalGather` (lines 344-350):
adds `directAccum`/`indirectAccum` and their squared magnitudes into the
running sums at the slot's `pixelIndex`. -/
def finalGatherStep (st : AccumState) (p : PathSegment) : AccumState where
  direct := Function.update st.direct p.pixelIndex
    (st.direct p.pixelIndex + p.directAccum)
  directSqr := Function.update st.directSqr p.pixelIndex
    (st.directSqr p.pixelIndex + length2 p.directAccum)
  indirect := Function.update st.indirect p.pixelIndex
    (st.indirect p.pixelIndex + p.indirectAccum)
  indirectSqr := Function.update st.indirectSqr p.pixelIndex
    (st.indirectSqr p.pixelIndex + length2 p.indirectAccum)

/-- The `finalGather` kernel (lines 336-351) over all `pixelcount` path
slots, as a fold of the per-slot contribution.  In the exact-arithmetic
embedding the sequential fold stands for the independent per-slot additions
of the kernel. -/
def finalGather (paths : List PathSegment) (st : AccumState) : AccumState :=
  paths.foldl finalGatherStep st

/-- One depth iteration of the loop in `pathtrace` (lines 422-473) as seen
by the active-path list, under the shading model the claim hypothesizes:
the `shade` launch rewrites each slot's `remainingBounces` either to one
less or to zero, and `thrust::partition` then keeps exactly the slots with
`remainingBounces > 0`, in some order. -/
def ShadeCompactStep (l l' : List PathSegment) : Prop :=
  ∃ m : List PathSegment,
    List.Forall₂ (fun p q =>
      q.remainingBounces = p.remainingBounces - 1 ∨ q.remainingBounces = 0) l m ∧
    l'.Perm (m.filter IsRayTravelling)

/-- A concrete path record used for concrete instantiations. -/
def examplePath (pix : ℕ) (d ind : Vec3 ℚ) (rb : ℤ) : PathSegment where
  ray := ⟨fun _ => 0, fun _ => 0⟩
  colorThroughput := fun _ => 1
  directAccum := d
  indirectAccum := ind
  pixelIndex := pix
  lastGeom := -1
  remainingBounces := rb
  prevBounceNoMis := true
  prevBounceSpecular := true
  indirectIllum := false

/-- A concrete depth-trace used for concrete instantiations: one path with
one remaining bounce, then the empty active set. -/
def exampleTrace : ℕ → List PathSegment :=
  fun k => if k = 0 then [examplePath 0 0 0 1] else []

end PathTracer

namespace PathTracer

/-- Everything a `Forall₂` right element is related to some left element. -/
theorem forall₂_mem_right {α β : Type} {R : α → β → Prop} :
    ∀ {l : List α} {m : List β}, List.Forall₂ R l m →
      ∀ q ∈ m, ∃ p ∈ l, R p q := by
  intro l m h
  induction h with
  | nil => intro q hq; simp at hq
  | cons hr _ ih =>
    intro q hq
    rcases List.mem_cons.mp hq with rfl | hq
    · exact ⟨_, List.mem_cons_self _ _, hr⟩
    · obtain ⟨p, hp, hpq⟩ := ih q hq
      exact ⟨p, List.mem_cons_of_mem _ hp, hpq⟩

/-- Every element of a `zipWith` comes from a pair of elements of the two
input lists. -/
theorem mem_zipWith {α β γ : Type} {f : α → β → γ} :
    ∀ {as : List α} {bs : List β} {c : γ}, c ∈ List.zipWith f as bs →
      ∃ a ∈ as, ∃ b ∈ bs, c = f a b := by
  intro as
  induction as with
  | nil => intro bs c h; simp at h
  | cons a as ih =>
    intro bs c h
    cases bs with
    | nil => simp at h
    | cons b bs =>
      rcases List.mem_cons.mp h with rfl | h
      · exact ⟨a, by simp, b, by simp, rfl⟩
      · obtain ⟨a', ha, b', hb, rfl⟩ := ih h
        exact ⟨a', by simp [ha], b', by simp [hb], rfl⟩

/-- One compact-and-shade step strictly decreases the bounce budget of every
surviving slot: if every slot of `l` has `remainingBounces ≤ c`, every slot
of the next active set has a positive count bounded by `c - 1`. -/
theorem shadeCompactStep_bound {l l' : List PathSegment} {c : ℤ}
    (h : ShadeCompactStep l l')
    (hb : ∀ p ∈ l, p.remainingBounces ≤ c) :
    ∀ q ∈ l', 0 < q.remainingBounces ∧ q.remainingBounces ≤ c - 1 := by
  obtain ⟨m, hf, hperm⟩ := h
  intro q hq
  have hqf : q ∈ m.filter IsRayTravelling := hperm.subset hq
  have hqm : q ∈ m ∧ IsRayTravelling q = true := List.mem_filter.mp hqf
  have hpos : 0 < q.remainingBounces := by
    have := hqm.2
    unfold IsRayTravelling at this
    exact of_decide_eq_true this
  obtain ⟨p, hp, hrel⟩ := forall₂_mem_right hf q hqm.1
  rcases hrel with hdec | hzero
  · exact ⟨hpos, by have := hb p hp; omega⟩
  · omega

/-- One compact-and-shade step never grows the active-path count. -/
theorem shadeCompactStep_length {l l' : List PathSegment}
    (h : ShadeCompactStep l l') : l'.length ≤ l.length := by
  obtain ⟨m, hf, hperm⟩ := h
  calc l'.length = (m.filter IsRayTravelling).length := hperm.length_eq
    _ ≤ m.length := List.length_filter_le _ _
    _ = l.length := hf.length_eq.symm

/-- C5: for every trace of the depth loop starting from paths initialized
with `remainingBounces = D`, under the hypothesis that each shading step
either decrements a slot's `remainingBounces` or zeroes it and compaction
keeps exactly the travelling slots, the active-path count is non-increasing
from one depth to the next and is zero after at most `D + 1` depth
iterations. -/
theorem pathtraceLoop_terminates (D : ℕ) (s : ℕ → List PathSegment)
    (h0 : ∀ p ∈ s 0, p.remainingBounces = (D : ℤ))
    (hstep : ∀ k, ShadeCompactStep (s k) (s (k + 1))) :
    (∀ k, (s (k + 1)).length ≤ (s k).length) ∧ (s (D + 1)).length = 0 := by
  refine ⟨fun k => shadeCompactStep_length (hstep k), ?_⟩
  have inv : ∀ k, ∀ q ∈ s (k + 1),
      0 < q.remainingBounces ∧ q.remainingBounces ≤ (D : ℤ) - (k + 1) := by
    intro k
    induction k with
    | zero =>
      intro q hq
      have := shadeCompactStep_bound (hstep 0)
        (fun p hp => le_of_eq (h0 p hp)) q hq
      constructor
      · exact this.1
      · have := this.2
        push_cast
        omega
    | succ n ih =>
      intro q hq
      have := shadeCompactStep_bound (hstep (n + 1))
        (fun p hp => (ih p hp).2) q hq
      constructor
      · exact this.1
      · have := this.2
        push_cast at this ⊢
        omega
  rw [List.length_eq_zero, List.eq_nil_iff_forall_not_mem]
  intro q hq
  have := inv D q hq
  omega

/-- Witness for `pathtraceLoop_terminates` on a concrete one-path trace with
`D = 1`. -/
theorem pathtraceLoop_terminates_witness :
    ((∀ p ∈ exampleTrace 0, p.remainingBounces = ((1 : ℕ) : ℤ)) ∧
      (∀ k, ShadeCompactStep (exampleTrace k) (exampleTrace (k + 1)))) ∧
    ((∀ k, (exampleTrace (k + 1)).length ≤ (exampleTrace k).length) ∧
      (exampleTrace (1 + 1)).length = 0) := by
  have h0 : ∀ p ∈ exampleTrace 0, p.remainingBounces = ((1 : ℕ) : ℤ) := by
    intro p hp
    simp only [exampleTrace, if_true, List.mem_singleton, reduceIte] at hp
    subst hp
    rfl
  have hstep : ∀ k, ShadeCompactStep (exampleTrace k) (exampleTrace (k + 1)) := by
    intro k
    cases k with
    | zero =>
      refine ⟨[{ examplePath 0 0 0 1 with remainingBounces := 0 }], ?_, ?_⟩
      · simp only [exampleTrace, if_pos rfl]
        exact List.Forall₂.cons (Or.inl (by decide)) List.Forall₂.nil
      · simp [exampleTrace, IsRayTravelling]
    | succ n =>
      refine ⟨[], ?_, ?_⟩
      · simp only [exampleTrace, if_neg (Nat.succ_ne_zero n)]
        exact List.Forall₂.nil
      · simp [exampleTrace]
  exact ⟨⟨h0, hstep⟩, pathtraceLoop_terminates 1 exampleTrace h0 hstep⟩

/-- The fold `finalGather` leaves the accumulation state unchanged on slots whose two
accumulators are zero. -/
theorem finalGather_zero (l : List PathSegment)
    (hz : ∀ p ∈ l, p.directAccum = 0 ∧ p.indirectAccum = 0) :
    ∀ st, finalGather l st = st := by
  induction l with
  | nil => intro st; rfl
  | cons p t ih =>
    intro st
    have hp := hz p (List.mem_cons_self _ _)
    have hstep : finalGatherStep st p = st := by
      unfold finalGatherStep
      ext i
      all_goals
        simp [hp.1, hp.2, length2, Function.update_eq_self]
    have : finalGather (p :: t) st = finalGather t (finalGatherStep st p) := rfl
    rw [this, hstep]
    exact ih (fun q hq => hz q (List.mem_cons_of_mem _ hq)) st

/-- C6: each path whose intersection carries the miss sentinel has its
throughput zeroed and its `remainingBounces` set to 0; hence when every
intersection is a miss, no shaded path is still travelling (the depth loop
exits after depth 0) and final gather leaves the all-zero accumulation
buffers all-zero. -/
theorem shade_miss_terminates
    (hitShade : ShadeableIntersection → PathSegment → PathSegment)
    (isects : List ShadeableIntersection) (rays : List Ray)
    (idxs : List ℕ) (td : ℤ)
    (hmiss : ∀ i ∈ isects, i.materialId = -1) :
    (∀ p ∈ shadeAll hitShade isects
        (List.zipWith (fun r n => generateRayFromCameraSegment r n td) rays idxs),
      p.colorThroughput = (fun _ => 0) ∧ p.remainingBounces = 0) ∧
    (shadeAll hitShade isects
        (List.zipWith (fun r n => generateRayFromCameraSegment r n td) rays idxs)).filter
      IsRayTravelling = [] ∧
    finalGather
      (shadeAll hitShade isects
        (List.zipWith (fun r n => generateRayFromCameraSegment r n td) rays idxs))
      zeroAccum = zeroAccum := by
  set paths :=
    List.zipWith (fun r n => generateRayFromCameraSegment r n td) rays idxs with hpaths
  have hsh : ∀ p ∈ shadeAll hitShade isects paths,
      p.colorThroughput = (fun _ => 0) ∧ p.remainingBounces = 0 ∧
        p.directAccum = 0 ∧ p.indirectAccum = 0 := by
    intro p hp
    obtain ⟨i, hi, q, hq, rfl⟩ := mem_zipWith hp
    obtain ⟨r, _, n, _, rfl⟩ := mem_zipWith hq
    have := hmiss i hi
    unfold shadePath
    rw [if_neg (by simp [this])]
    exact ⟨rfl, rfl, rfl, rfl⟩
  refine ⟨fun p hp => ⟨(hsh p hp).1, (hsh p hp).2.1⟩, ?_, ?_⟩
  · rw [List.filter_eq_nil_iff]
    intro p hp
    unfold IsRayTravelling
    rw [(hsh p hp).2.1]
    decide
  · exact finalGather_zero _ (fun p hp => (hsh p hp).2.2) zeroAccum

/-- Witness for `shade_miss_terminates` on a concrete all-miss scene with
one pixel. -/
theorem shade_miss_terminates_witness :
    (∀ i ∈ [(⟨-1, -1, fun _ => 0, fun _ => 0⟩ : ShadeableIntersection)],
      i.materialId = -1) ∧
    ((∀ p ∈ shadeAll (fun _ p => p)
        [(⟨-1, -1, fun _ => 0, fun _ => 0⟩ : ShadeableIntersection)]
        (List.zipWith (fun r n => generateRayFromCameraSegment r n 8)
          [(⟨fun _ => 0, fun _ => 0⟩ : Ray)] [0]),
      p.colorThroughput = (fun _ => 0) ∧ p.remainingBounces = 0) ∧
    (shadeAll (fun _ p => p)
        [(⟨-1, -1, fun _ => 0, fun _ => 0⟩ : ShadeableIntersection)]
        (List.zipWith (fun r n => generateRayFromCameraSegment r n 8)
          [(⟨fun _ => 0, fun _ => 0⟩ : Ray)] [0])).filter
      IsRayTravelling = [] ∧
    finalGather
      (shadeAll (fun _ p => p)
        [(⟨-1, -1, fun _ => 0, fun _ => 0⟩ : ShadeableIntersection)]
        (List.zipWith (fun r n => generateRayFromCameraSegment r n 8)
          [(⟨fun _ => 0, fun _ => 0⟩ : Ray)] [0]))
      zeroAccum = zeroAccum) := by
  have hmiss : ∀ i ∈ [(⟨-1, -1, fun _ => 0, fun _ => 0⟩ : ShadeableIntersection)],
      i.materialId = -1 := by
    intro i hi
    simp only [List.mem_singleton] at hi
    subst hi
    rfl
  exact ⟨hmiss, shade_miss_terminates (fun _ p => p) _ _ _ 8 hmiss⟩

/-- Adding two slot contributions into the running sums commutes, whether or
not the two slots target the same pixel. -/
theorem update_add_comm {M : Type} [AddCommMonoid M] (f : ℕ → M) (a b : ℕ)
    (x y : M) :
    Function.update (Function.update f a (f a + x)) b
        ((Function.update f a (f a + x)) b + y) =
      Function.update (Function.update f b (f b + y)) a
        ((Function.update f b (f b + y)) a + x) := by
  by_cases hab : a = b
  · subst hab
    simp [Function.update_idem, Function.update_same, add_right_comm]
  · have hba : b ≠ a := fun h => hab h.symm
    rw [Function.update_noteq hba, Function.update_noteq hab,
      Function.update_comm hab]

/-- Two consecutive `finalGather` slot contributions commute. -/
theorem finalGatherStep_comm (st : AccumState) (p q : PathSegment) :
    finalGatherStep (finalGatherStep st p) q =
      finalGatherStep (finalGatherStep st q) p := by
  unfold finalGatherStep
  refine AccumState.ext ?_ ?_ ?_ ?_
  all_goals
    exact update_add_comm _ _ _ _ _

/-- C7: final gather adds every slot's accumulators (dead and alive alike)
into the per-pixel running sums indexed by the slot's `pixelIndex`; in exact
arithmetic the resulting accumulation state is invariant under any
permutation of the path slots at loop exit. -/
theorem finalGather_perm_invariant (l l' : List PathSegment)
    (st : AccumState) (h : l.Perm l') :
    finalGather l st = finalGather l' st := by
  induction h generalizing st with
  | nil => rfl
  | cons x _ ih =>
    show finalGather _ (finalGatherStep st x) = finalGather _ (finalGatherStep st x)
    exact ih _
  | swap x y t =>
    show finalGather t (finalGatherStep (finalGatherStep st y) x) =
      finalGather t (finalGatherStep (finalGatherStep st x) y)
    rw [finalGatherStep_comm]
  | trans _ _ ih1 ih2 => exact (ih1 st).trans (ih2 st)

/-- Witness for `finalGather_perm_invariant` on a concrete two-slot swap. -/
theorem finalGather_perm_invariant_witness :
    ([examplePath 0 (fun _ => 1) (fun _ => 2) 0, examplePath 1 (fun _ => 3) 0 2].Perm
      [examplePath 1 (fun _ => 3) 0 2, examplePath 0 (fun _ => 1) (fun _ => 2) 0]) ∧
    finalGather [examplePath 0 (fun _ => 1) (fun _ => 2) 0, examplePath 1 (fun _ => 3) 0 2]
        zeroAccum =
      finalGather [examplePath 1 (fun _ => 3) 0 2, examplePath 0 (fun _ => 1) (fun _ => 2) 0]
        zeroAccum :=
  ⟨List.Perm.swap _ _ _,
    finalGather_perm_invariant _ _ zeroAccum (List.Perm.swap _ _ _)⟩

/-- C2: the denoiser-run operation's buffer-category-to-storage mapping is
inverted relative to the buffer-type names used by the buffer selector:
running `aTrous` for the direct category reads the indirect accumulation sum
and sum-of-squares and writes the buffer `getBuffers` returns for
`FilteredIndirectDiffuse`, and running it for the indirect category reads
the direct accumulation buffers and writes the `FilteredDirectSpecular`
buffer. -/
theorem aTrous_buffer_mapping_inverted :
    aTrousSelect BufferType.DirectSpecularIllumination =
      ATrousDispatch.run DevBuffer.indirectIllum DevBuffer.indirectIllumSqr
        (getBuffers BufferType.FilteredIndirectDiffuse).1 ∧
    aTrousSelect BufferType.IndirectDiffuseIllumination =
      ATrousDispatch.run DevBuffer.directIllum DevBuffer.directIllumSqr
        (getBuffers BufferType.FilteredDirectSpecular).1 := by
  exact ⟨rfl, rfl⟩

/-- C3: for every iteration counter, pixel index and pool size `N > 0`, the
stratified sample index is `iter % N` under the splatting policy and
`(iter + hash p) % N` under the full-stratified policy; consequently at a
fixed iteration the indices of two pixels in full-stratified mode differ by
the constant phase `(hash pA - hash pB) mod N`. -/
theorem stratifiedSampleIndex_spec (hash : ℕ → ℕ) (iter pA pB N : ℕ)
    (hN : 0 < N) :
    stratifiedSampleIndex true hash iter pA N = iter % N ∧
    stratifiedSampleIndex false hash iter pA N = (iter + hash pA) % N ∧
    ((stratifiedSampleIndex false hash iter pA N : ℤ) -
        (stratifiedSampleIndex false hash iter pB N : ℤ)) % (N : ℤ) =
      ((hash pA : ℤ) - (hash pB : ℤ)) % (N : ℤ) := by
  refine ⟨rfl, rfl, ?_⟩
  unfold stratifiedSampleIndex
  simp only [if_neg Bool.false_ne_true]
  push_cast
  rw [← Int.sub_emod]
  congr 1
  ring

/-- Witness for `stratifiedSampleIndex_spec` at a concrete input. -/
theorem stratifiedSampleIndex_spec_witness :
    0 < 4 ∧
    (stratifiedSampleIndex true (fun n => n * n) 5 3 4 = 5 % 4 ∧
     stratifiedSampleIndex false (fun n => n * n) 5 3 4 = (5 + 3 * 3) % 4 ∧
     ((stratifiedSampleIndex false (fun n => n * n) 5 3 4 : ℤ) -
         (stratifiedSampleIndex false (fun n => n * n) 5 7 4 : ℤ)) % (4 : ℤ) =
       ((3 * 3 : ℤ) - (7 * 7 : ℤ)) % (4 : ℤ)) :=
  ⟨by decide, stratifiedSampleIndex_spec (fun n => n * n) 5 3 7 4 (by decide)⟩

/-- C1 counterexample: at a pixel with running sum 0, running sum-of-squares
4 and iteration count 2, the unbiased sample variance is 4 but the estimate
the variance pass stores is 2 (the square root): the stored per-pixel
estimate does not equal the unbiased sample variance. -/
theorem aTrousComputeVariance_not_variance :
    aTrousComputeVariancePixel (fun _ => 0) 4 2 ≠
      unbiasedSampleVariance (fun _ => 0) 4 2 := by
  have h2 : unbiasedSampleVariance (fun _ => 0) 4 2 = 4 := by
    unfold unbiasedSampleVariance length2
    norm_num
  have h1 : aTrousComputeVariancePixel (fun _ => 0) 4 2 = 2 := by
    unfold aTrousComputeVariancePixel length2
    rw [if_pos (by norm_num)]
    have : ((4 : ℝ) - ((0 : ℝ) * 0 + 0 * 0 + 0 * 0) / ((2 : ℕ) : ℝ)) /
        (((2 : ℕ) : ℝ) - 1) = 4 := by norm_num
    rw [this, max_eq_right (by norm_num : (0 : ℝ) ≤ 4),
      show (4 : ℝ) = 2 ^ 2 by norm_num, Real.sqrt_sq (by norm_num : (0 : ℝ) ≤ 2)]
  rw [h1, h2]
  norm_num

/-- C1 (amended): for `iter > 1` the per-pixel estimate stored by phase 1 of
the A-trous denoiser is the square root of the nonnegative clamp of the
unbiased sample variance `(sumSqr - |sum|^2 / iter) / (iter - 1)` — the
sample standard deviation, not the variance itself — and for `iter = 1` the
stored estimate is exactly `1.0` at every pixel. -/
theorem aTrousComputeVariance_stddev (sum : Vec3 ℝ) (sumSqr : ℝ) (iter : ℕ) :
    (1 < iter →
      aTrousComputeVariancePixel sum sumSqr iter =
        Real.sqrt (max 0 (unbiasedSampleVariance sum sumSqr iter))) ∧
    aTrousComputeVariancePixel sum sumSqr 1 = 1 := by
  constructor
  · intro h
    unfold aTrousComputeVariancePixel unbiasedSampleVariance
    rw [if_pos h]
  · unfold aTrousComputeVariancePixel
    norm_num

/-- Witness for `aTrousComputeVariance_stddev` at a concrete input. -/
theorem aTrousComputeVariance_stddev_witness :
    1 < 3 ∧
    aTrousComputeVariancePixel (fun _ => 1) 9 3 =
      Real.sqrt (max 0 (unbiasedSampleVariance (fun _ => 1) 9 3)) ∧
    aTrousComputeVariancePixel (fun _ => 1) 9 1 = 1 :=
  ⟨by norm_num,
    (aTrousComputeVariance_stddev (fun _ => 1) 9 3).1 (by norm_num),
    (aTrousComputeVariance_stddev (fun _ => 1) 9 1).2⟩

/-- C10: the display/readback transform for the two variance buffer types
divides by `iter - 1` with no guard: when `iter > 1` the divisor is nonzero
and the value is defined, but at `iter = 1` the division is undefined — this
path has no `1.0` fallback, unlike the denoiser's variance pass, which
stores exactly `1.0` at `iter = 1`. -/
theorem processTexelVariance_needs_iter_gt_one (pix1 : Vec3 ℚ) (sumSqr : ℚ)
    (iter : ℤ) (sumR : Vec3 ℝ) (sumSqrR : ℝ) :
    (1 < iter →
      ((iter : ℚ) - 1 ≠ 0 ∧
        processTexelVariancePixel pix1 sumSqr iter =
          some ((sumSqr - length2 pix1 / (iter : ℚ)) / ((iter : ℚ) - 1)))) ∧
    processTexelVariancePixel pix1 sumSqr 1 = none ∧
    aTrousComputeVariancePixel sumR sumSqrR 1 = 1 := by
  refine ⟨fun h => ⟨?_, ?_⟩, ?_, ?_⟩
  · have : (1 : ℚ) < (iter : ℚ) := by exact_mod_cast h
    linarith
  · unfold processTexelVariancePixel
    rw [if_neg]
    push_neg
    constructor <;> omega
  · unfold processTexelVariancePixel
    simp
  · unfold aTrousComputeVariancePixel
    norm_num

/-- Witness for `processTexelVariance_needs_iter_gt_one` at a concrete
input. -/
theorem processTexelVariance_needs_iter_gt_one_witness :
    (1 : ℤ) < 5 ∧
    (((5 : ℤ) : ℚ) - 1 ≠ 0 ∧
      processTexelVariancePixel (fun _ => 1) 7 5 =
        some ((7 - length2 (fun _ => (1 : ℚ)) / ((5 : ℤ) : ℚ)) /
          (((5 : ℤ) : ℚ) - 1))) ∧
    processTexelVariancePixel (fun _ => 1) 7 1 = none ∧
    aTrousComputeVariancePixel (fun _ => 1) 7 1 = 1 :=
  ⟨by decide,
    (processTexelVariance_needs_iter_gt_one (fun _ => 1) 7 5 (fun _ => 1) 7).1
      (by decide),
    (processTexelVariance_needs_iter_gt_one (fun _ => 1) 7 5 (fun _ => 1) 7).2.1,
    (processTexelVariance_needs_iter_gt_one (fun _ => 1) 7 5 (fun _ => 1) 7).2.2⟩

/-- Folding pairwise additions over a list accumulates the two component
sums. -/
theorem foldl_add_pair {α : Type} (l : List α) (g : α → Vec3 ℝ × ℝ)
    (init : Vec3 ℝ × ℝ) :
    l.foldl (fun a e => (a.1 + (g e).1, a.2 + (g e).2)) init =
      (init.1 + (l.map fun e => (g e).1).sum,
        init.2 + (l.map fun e => (g e).2).sum) := by
  induction l generalizing init with
  | nil => simp
  | cons e t ih =>
    simp only [List.foldl_cons, List.map_cons, List.sum_cons, ih, add_assoc]

/-- The 5x5 accumulation loop of `aTrousIter`, for any step that adds a
per-tap weighted color and weight, computes the two double sums over the
tap grid. -/
theorem aTrousLoop_eq (W : Fin 5 → Fin 5 → ℝ) (C : Fin 5 → Fin 5 → Vec3 ℝ)
    (step : Vec3 ℝ × ℝ → Fin 5 → Fin 5 → Vec3 ℝ × ℝ)
    (hstep : ∀ a x y, step a x y = (a.1 + W x y • C x y, a.2 + W x y)) :
    aTrousLoop step =
      (∑ x : Fin 5, ∑ y : Fin 5, W x y • C x y,
        ∑ x : Fin 5, ∑ y : Fin 5, W x y) := by
  unfold aTrousLoop
  have hinner : ∀ (acc : Vec3 ℝ × ℝ) (x : Fin 5),
      (List.finRange 5).foldl (fun a y => step a x y) acc =
        (acc.1 + ∑ y : Fin 5, W x y • C x y, acc.2 + ∑ y : Fin 5, W x y) := by
    intro acc x
    have h1 : (fun (a : Vec3 ℝ × ℝ) y => step a x y) =
        fun a y => (a.1 + W x y • C x y, a.2 + W x y) := by
      funext a y
      exact hstep a x y
    rw [h1, foldl_add_pair _ (fun y => (W x y • C x y, W x y))]
    simp [Fin.sum_univ_def]
  rw [List.foldl_ext _
    (fun acc x => (acc.1 + ∑ y : Fin 5, W x y • C x y, acc.2 + ∑ y : Fin 5, W x y))
    _ (fun acc x _ => hinner acc x)]
  rw [foldl_add_pair _
    (fun x => (∑ y : Fin 5, W x y • C x y, ∑ y : Fin 5, W x y))]
  simp [Fin.sum_univ_def]

/-- The binomial weight at grid index 2 is the center weight 0.375. -/
theorem binomWeights_center (x : Fin 5) (hx : x.val = 2) :
    binomWeights x = 0.375 := by
  have hx2 : x = (2 : Fin 5) := Fin.ext (by simpa using hx)
  subst hx2
  norm_num [binomWeights, Matrix.cons_val_two, Matrix.vecTail, Matrix.vecHead]

/-- C4: each A-trous filter level's per-pixel output is the weighted average
over the 5x5 tap grid normalized by total accumulated weight, where each
non-center tap's weight is the product of the axis binomial weights times
the edge-stopping factor `exp(-(colorTerm + normalTerm + positionTerm))`
built from the squared color, normal and world-position differences divided
by `colorWeight^2 * centerEstimate + eps`, `normalWeight^2 * stepSize^2`
and `positionWeight^2` respectively, and the center tap uses weight
`0.375 * 0.375` with the raw center color and no edge-stopping factor.
The kernel receives the three weights already squared (`aTrous` passes
`w * w` for each, line 706). -/
theorem aTrousIter_weighted_average (color normal position : ℕ → Vec3 ℝ)
    (stddev : ℕ → ℝ) (width height : ℕ)
    (stepSize colorWeight normalWeight positionWeight : ℝ) (ix iy : ℕ) :
    aTrousIterPixel color normal position stddev width height stepSize
      (colorWeight * colorWeight) (normalWeight * normalWeight)
      (positionWeight * positionWeight) ix iy =
    fun i =>
      (∑ x : Fin 5, ∑ y : Fin 5,
        specTapWeight color normal position stddev width height stepSize
            colorWeight normalWeight positionWeight ix iy x y •
          specTapColor color width height stepSize ix iy x y) i /
      (∑ x : Fin 5, ∑ y : Fin 5,
        specTapWeight color normal position stddev width height stepSize
          colorWeight normalWeight positionWeight ix iy x y) := by
  unfold aTrousIterPixel
  rw [aTrousLoop_eq
    (specTapWeight color normal position stddev width height stepSize
      colorWeight normalWeight positionWeight ix iy)
    (specTapColor color width height stepSize ix iy) _ ?_]
  intro a x y
  by_cases hxy : x.val = 2 ∧ y.val = 2
  · rw [if_pos hxy]
    unfold specTapWeight specTapColor
    rw [if_pos hxy, if_pos hxy, binomWeights_center x hxy.1,
      binomWeights_center y hxy.2]
  · rw [if_neg hxy]
    unfold specTapWeight specTapColor specEdgeStop
    rw [if_neg hxy, if_neg hxy]

/-- C8 (code evaluated at the failing input): calling the denoiser run for a
buffer identifier outside its recognized pair does not produce a reportable
error result; it reaches the `std::abort()` branch. -/
theorem aTrousSelect_aborts_on_unrecognized :
    aTrousSelect BufferType.Normal = ATrousDispatch.abort ∧
    aTrousSelect BufferType.FullIllumination = ATrousDispatch.abort ∧
    aTrousSelect BufferType.FilteredColor = ATrousDispatch.abort := by
  exact ⟨rfl, rfl, rfl⟩

/-- C9 (code evaluated at the failing input): at resolution 10 by 10 the
launch grid contains thread (15, 9); the early-return guard does not fire
for it even though its x coordinate is out of range, and the path-array
index it then writes, 105, lies beyond the 100-slot path array. -/
theorem generateRayGuard_misses_oob_thread :
    (15 : ℤ) < launchThreads 10 ∧ (9 : ℤ) < launchThreads 10 ∧
    generateRayGuard 10 10 15 9 = false ∧
    ¬((15 : ℤ) < 10 ∧ (9 : ℤ) < 10) ∧
    (10 * 10 : ℤ) ≤ generateRayWriteIndex 10 15 9 := by
  refine ⟨by decide, by decide, by decide, by decide, by decide⟩

end PathTracer
